import Mathlib

/-!
# dashExtensions_default.js

A shallow embedding of `src/assets/dashExtensions_default.js`: the two
callbacks `function0` (tooltip binder) and `function1` (coloured marker
factory) and the statement that registers them under
`window.dashExtensions.default`.

## The JavaScript fragment that is modelled

* Values are the primitives `undefined`, `null`, booleans, numbers and
  strings, references to heap objects, function objects, and colour objects
  made by the colour-scale library.  A number is the rational it denotes;
  `NaN` and the infinities are not represented.  Symbols and BigInts are not
  represented.
* A heap object is its list of own enumerable data properties in insertion
  order; an array is the bag of its index properties `"0"`, `"1"`, ...
  Inherited members (`Object.prototype`, wrapper objects of primitives),
  accessors and non-enumerable properties are not modelled: reading a key
  that is not an own property gives `undefined`.
* The script is a classic script without a strict-mode directive, so an
  assignment to a property of a primitive is silently dropped.
* The layer given to `function0` is the handle of a Leaflet layer; its
  method `bindTooltip` is the library's, and a call of it is recorded in
  the tooltip log of the state.
* The object `window` is represented by the one slot the script reads and
  writes, `window.dashExtensions`.
* What the engine and the libraries do is taken as a parameter `Env`:
  the text of a number, the text of a non-primitive, the index properties of
  a string, the colour scale of chroma and the marker constructor of
  Leaflet.  They are total functions without effect on the modelled heap; an
  exception raised inside a library is outside the model.
* The colour scale itself is chroma's and not part of this repository.
  Where a statement is about the colours it answers, the scale is the one
  the spec describes (`scaleAt`, `specScale`), over exact rationals.
-/

namespace DashExtensions

/-! ## Values, objects, heap -/

/-- A colour: red, green and blue channels (0 to 255 for a displayable
colour), kept exact. -/
structure RGB where
  r : ℚ
  g : ℚ
  b : ℚ
  deriving DecidableEq

/-- JavaScript values. -/
inductive Val where
  | undefined
  | null
  | bool (b : Bool)
  | num (x : ℚ)
  | str (s : String)
  | obj (r : Nat)
  | fn (name : String)
  | color (c : RGB)
  deriving DecidableEq

/-- An object: its own enumerable data properties, in insertion order. -/
abbrev Obj := List (String × Val)

/-- The heap: object `r` is the `r`-th entry. -/
abbrev Heap := List Obj

/-- Abrupt completions.  `typeError` is the engine's `TypeError`; `dangling`
marks a reference to no object, which no JavaScript state contains. -/
inductive Err where
  | typeError
  | dangling
  deriving DecidableEq

/-- The state the script and its callbacks act on: the heap, the log of
`bindTooltip` calls received by layers (layer handle, text) in call order,
and the global slot `window.dashExtensions`. -/
structure World where
  heap : Heap
  tooltips : List (Nat × String)
  dashExtensions : Val
  deriving DecidableEq

/-- Own-property read `o[k]`; `undefined` when `k` is not a property. -/
def getOwn (o : Obj) (k : String) : Val :=
  (o.lookup k).getD Val.undefined

/-- Own-property write `o[k] = v`: replaces the value of an existing key in
place, appends a new key otherwise. -/
def putOwn : Obj → String → Val → Obj
  | [], k, v => [(k, v)]
  | (k', v') :: rest, k, v =>
    if k' = k then (k', v) :: rest else (k', v') :: putOwn rest k v

/-- The own property `k` of object `r`: `none` when the heap has no object
`r`, `some none` when that object has no key `k`. -/
def field (h : Heap) (r : Nat) (k : String) : Option (Option Val) :=
  (h[r]?).map (fun o => List.lookup k o)

/-- The object a value refers to, if it is a reference to one. -/
def deref (h : Heap) : Val → Option Obj
  | Val.obj r => h[r]?
  | _ => none

/-- Property read `base[k]` (also `base.k`): a `TypeError` on `undefined`
and `null`. -/
def getProp (h : Heap) (base : Val) (k : String) : Except Err Val :=
  match base with
  | Val.undefined => Except.error Err.typeError
  | Val.null => Except.error Err.typeError
  | Val.obj r =>
    match h[r]? with
    | some o => Except.ok (getOwn o k)
    | none => Except.error Err.dangling
  | _ => Except.ok Val.undefined

/-- Property write `base[k] = v` in sloppy mode: a `TypeError` on
`undefined` and `null`, dropped on the other primitives. -/
def setProp (h : Heap) (base : Val) (k : String) (v : Val) : Except Err Heap :=
  match base with
  | Val.undefined => Except.error Err.typeError
  | Val.null => Except.error Err.typeError
  | Val.obj r =>
    match h[r]? with
    | some o => Except.ok (h.set r (putOwn o k v))
    | none => Except.error Err.dangling
  | _ => Except.ok h

/-! ## The environment: engine and libraries -/

/-- What the callbacks use and this file does not define. -/
structure Env (μ : Type) where
  /-- The text of a number, `Number::toString`. -/
  numberText : ℚ → String
  /-- The text (`ToString`) of a value that is not a primitive, given the
  object it refers to (if any). -/
  objectText : Val → Option Obj → String
  /-- Own enumerable (index) properties of the wrapper of a string. -/
  stringEntries : String → Obj
  /-- The function `x ↦ chroma.scale(colorscale).domain([min, max])(x)`, given
  `colorscale`, the object it refers to (if any), `min`, `max` and `x`. -/
  scale : Val → Option Obj → Val → Val → Val → Val
  /-- The constructor `L.circleMarker(latlng, options)`, given the heap at
  the time of the call. -/
  circleMarker : Heap → Val → Val → μ

/-- The text of a value, `ToString`, as applied to a substitution of a
template literal and to a computed property key. -/
def toText {μ : Type} (env : Env μ) (h : Heap) : Val → String
  | Val.undefined => "undefined"
  | Val.null => "null"
  | Val.bool true => "true"
  | Val.bool false => "false"
  | Val.num x => env.numberText x
  | Val.str s => s
  | v => env.objectText v (deref h v)

/-! ## The callbacks -/

/-- The callback `function0(feature, layer, context)`:
`layer.bindTooltip(<template literal>)`. -/
def function0 {μ : Type} (env : Env μ) (feature : Val) (layer : Nat) (_context : Val)
    (w : World) : Except Err World := do
  let props ← getProp w.heap feature "properties"
  let pid ← getProp w.heap props "pid"
  let props2 ← getProp w.heap feature "properties"
  let mv ← getProp w.heap props2 "mean_velocity"
  let text := toText env w.heap pid ++ " (" ++ toText env w.heap mv ++ ")"
  pure { w with tooltips := w.tooltips ++ [(layer, text)] }

/-- The callback `function1(feature, latlng, context)`. -/
def function1 {μ : Type} (env : Env μ) (feature latlng context : Val)
    (w : World) : Except Err (μ × World) := do
  let hideout ← getProp w.heap context "hideout"
  let min ← getProp w.heap hideout "min"
  let max ← getProp w.heap hideout "max"
  let colorscale ← getProp w.heap hideout "colorscale"
  let circleOptions ← getProp w.heap hideout "circleOptions"
  let colorProp ← getProp w.heap hideout "colorProp"
  let csc := env.scale colorscale (deref w.heap colorscale) min max
  let props ← getProp w.heap feature "properties"
  let value ← getProp w.heap props (toText env w.heap colorProp)
  let heap2 ← setProp w.heap circleOptions "fillColor" (csc value)
  pure (env.circleMarker heap2 latlng circleOptions, { w with heap := heap2 })

/-! ## The registration statement -/

/-- Allocation of a new object: its reference and the extended heap. -/
def alloc (h : Heap) (o : Obj) : Nat × Heap :=
  (h.length, h ++ [o])

/-- The own enumerable properties `Object.assign` copies from one source:
none for `undefined`, `null` and the primitives without index properties. -/
def ownEntries {μ : Type} (env : Env μ) (h : Heap) : Val → Except Err Obj
  | Val.obj r =>
    match h[r]? with
    | some o => Except.ok o
    | none => Except.error Err.dangling
  | Val.str s => Except.ok (env.stringEntries s)
  | _ => Except.ok []

/-- The writes `target[k] = v` for the entries of one source, in order. -/
def assignFrom (target : Obj) (src : Obj) : Obj :=
  src.foldl (fun t kv => putOwn t kv.1 kv.2) target

/-- The call `Object.assign(target, ...sources)` on the heap. -/
def objectAssign {μ : Type} (env : Env μ) (h : Heap) (target : Nat) :
    List Val → Except Err Heap
  | [] => Except.ok h
  | s :: rest => do
    let entries ← ownEntries env h s
    match h[target]? with
    | some t => objectAssign env (h.set target (assignFrom t entries)) target rest
    | none => Except.error Err.dangling

/-- The whole script:
`window.dashExtensions = Object.assign({}, window.dashExtensions, {default: {function0, function1}})`.
The `window` object is represented by the one slot the script reads and
writes. -/
def dashExtensionsScript {μ : Type} (env : Env μ) (w : World) : Except Err World := do
  let (target, h1) := alloc w.heap []
  let old := w.dashExtensions
  let (inner, h2) := alloc h1
    [("function0", Val.fn "function0"), ("function1", Val.fn "function1")]
  let (outer, h3) := alloc h2 [("default", Val.obj inner)]
  let h4 ← objectAssign env h3 target [old, Val.obj outer]
  pure { w with heap := h4, dashExtensions := Val.obj target }

/-! ## The colour scale, from its description -/

/-- Modelled from the spec: the "linear interpolation" of the colour scale,
taken channel by channel, from `a` (at `t = 0`) to `b` (at `t = 1`). -/
def lerp (a b : RGB) (t : ℚ) : RGB :=
  ⟨a.r + (b.r - a.r) * t, a.g + (b.g - a.g) * t, a.b + (b.b - a.b) * t⟩

/-- Channel-wise midpoint of two colours. -/
def midpoint (a b : RGB) : RGB :=
  ⟨(a.r + b.r) / 2, (a.g + b.g) / 2, (a.b + b.b) / 2⟩

/-- The elements of an array object: the values at its index keys. -/
def arrayElems (o : Obj) : List Val :=
  (List.range o.length).filterMap (fun i => o.lookup (toString i))

/-- The colour of one stop of a colour sequence. -/
def stopColor (parse : String → Option RGB) : Val → Option RGB
  | Val.str s => parse s
  | Val.color c => some c
  | _ => none

/-- The colours of a sequence of stops, when each stop is a colour. -/
def stopColors (parse : String → Option RGB) : List Val → Option (List RGB)
  | [] => some []
  | v :: rest =>
    match stopColor parse v, stopColors parse rest with
    | some c, some cs => some (c :: cs)
    | _, _ => none

/-- Modelled from the spec: "linear interpolation across scale stops", here
the stops `c :: rest`, one unit of `s` per pair of neighbouring stops. -/
def stopsAt (c : RGB) : List RGB → ℚ → RGB
  | [], _ => c
  | d :: rest, s => if s ≤ 1 then lerp c d s else stopsAt d rest (s - 1)

/-- Modelled from the spec: the colour scale of the chroma library, which is
not part of this repository.  "A continuous color-scale function whose
domain is `[min, max]` and whose range is the given ordered color sequence
(linear interpolation across scale stops in between; colors below `min` or
above `max` clamp to the nearest endpoint color)".  The stops are spread
evenly over the domain.  There is no colour for an empty sequence.  On a
domain of a single point (`min = max`) every value is as near to one
endpoint as to the other and the sentence names no colour: what the scale
answers there, from the colours `c :: rest`, the point and the value, is
the parameter `flat`. -/
def scaleAt (flat : RGB → List RGB → ℚ → ℚ → RGB) (cs : List RGB) (mn mx x : ℚ) :
    Option RGB :=
  match cs with
  | [] => none
  | c :: rest =>
    if mn = mx then some (flat c rest mn x)
    else if x ≤ mn then some c
    else if mx ≤ x then some (rest.getLastD c)
    else some (stopsAt c rest ((x - mn) / (mx - mn) * rest.length))

/-- Modelled from the spec: `x ↦ chroma.scale(colorscale).domain([min, max])(x)`
on JavaScript values.  The syntax of a colour is the library's and is the
parameter `parse`; "if the named property is missing or non-numeric, the
color-scale function receives an invalid domain value; resulting color is
whatever the scale implementation's fallback/undefined behavior produces",
the parameter `fallback`, which is also the result for a domain or a colour
sequence that is not well formed.  The parameter `flat` is the answer on a
domain of a single point. -/
def specScale (parse : String → Option RGB) (fallback : Val)
    (flat : RGB → List RGB → ℚ → ℚ → RGB) :
    Val → Option Obj → Val → Val → Val → Val
  | _, some o, Val.num mn, Val.num mx, Val.num x =>
    match stopColors parse (arrayElems o) with
    | some cs =>
      match scaleAt flat cs mn mx x with
      | some c => Val.color c
      | none => fallback
    | none => fallback
  | _, _, _, _, _ => fallback

/-! ## A concrete environment -/

/-- The value of a hexadecimal digit. -/
def hexDigit (c : Char) : Option Nat :=
  if '0' ≤ c ∧ c ≤ '9' then some (c.toNat - 48)
  else if 'a' ≤ c ∧ c ≤ 'f' then some (c.toNat - 87)
  else if 'A' ≤ c ∧ c ≤ 'F' then some (c.toNat - 55)
  else none

/-- The colour written `#rrggbb`. -/
def hexColor (s : String) : Option RGB :=
  match s.toList with
  | ['#', r1, r0, g1, g0, b1, b0] => do
    let r1 ← hexDigit r1
    let r0 ← hexDigit r0
    let g1 ← hexDigit g1
    let g0 ← hexDigit g0
    let b1 ← hexDigit b1
    let b0 ← hexDigit b0
    pure ⟨(16 * r1 + r0 : Nat), (16 * g1 + g0 : Nat), (16 * b1 + b0 : Nat)⟩
  | _ => none

/-- A marker as the sample constructor builds it: the coordinate and the
options value it was given, and the options object as it was at that time. -/
structure Marker where
  latlng : Val
  options : Val
  style : Option Obj
  deriving DecidableEq

/-- A concrete environment for the examples.  An integer prints in decimal,
as ECMAScript prints it below `10^21`; the text of other numbers is not
used by the examples and is left as numerator and denominator.  The colour
scale is the one modelled from the spec, over `#rrggbb` colours, with
`undefined` as its fallback; on a domain of a single point it answers the
last colour of the sequence, as the chroma library does. -/
def sampleEnv : Env Marker where
  numberText x := if x.den = 1 then toString x.num else toString x.num ++ "/" ++ toString x.den
  objectText _ _ := "[object Object]"
  stringEntries s := s.toList.enum.map (fun p => (toString p.1, Val.str (String.singleton p.2)))
  scale := specScale hexColor Val.undefined (fun c rest _ _ => rest.getLastD c)
  circleMarker h latlng options := ⟨latlng, options, deref h options⟩

/-- A heap for the examples: three features with their property bags, a
context with its hideout, a two-colour scale, the shared options object and
a coordinate pair. -/
def sampleHeap : Heap :=
  [ [("type", Val.str "Feature"), ("properties", Val.obj 1)],
    [("pid", Val.str "A1"), ("mean_velocity", Val.num 50)],
    [("hideout", Val.obj 3)],
    [("min", Val.num 0), ("max", Val.num 100), ("colorscale", Val.obj 4),
      ("circleOptions", Val.obj 5), ("colorProp", Val.str "mean_velocity")],
    [("0", Val.str "#000000"), ("1", Val.str "#ffffff")],
    [("radius", Val.num 5), ("fillOpacity", Val.num 1)],
    [("0", Val.num 52), ("1", Val.num (-1))],
    [("type", Val.str "Feature"), ("properties", Val.obj 8)],
    [("pid", Val.str "B2"), ("mean_velocity", Val.num 150)],
    [("type", Val.str "Feature"), ("properties", Val.obj 10)],
    [("pid", Val.str "C3"), ("mean_velocity", Val.num 200)],
    [("type", Val.str "Feature"), ("properties", Val.obj 12)],
    [("pid", Val.str "D4")] ]

/-- The state of the examples: the sample heap, no tooltip bound yet, no
registry yet. -/
def sampleWorld : World :=
  ⟨sampleHeap, [], Val.undefined⟩

/-- The sample state with one more feature, `{pid: "E5", mean_velocity: 20}`,
as objects 13 and 14. -/
def pairWorld : World :=
  ⟨sampleHeap ++
    [ [("type", Val.str "Feature"), ("properties", Val.obj 14)],
      [("pid", Val.str "E5"), ("mean_velocity", Val.num 20)] ],
   [], Val.undefined⟩

/-- A state whose hideout has the domain of a single point, `min = max = 0`,
and whose feature has `mean_velocity` -5, below it. -/
def flatWorld : World :=
  ⟨[ [("type", Val.str "Feature"), ("properties", Val.obj 1)],
     [("pid", Val.str "A1"), ("mean_velocity", Val.num (-5))],
     [("hideout", Val.obj 3)],
     [("min", Val.num 0), ("max", Val.num 0), ("colorscale", Val.obj 4),
       ("circleOptions", Val.obj 5), ("colorProp", Val.str "mean_velocity")],
     [("0", Val.str "#000000"), ("1", Val.str "#ffffff")],
     [("radius", Val.num 5)],
     [("0", Val.num 52), ("1", Val.num (-1))] ],
   [], Val.undefined⟩

/-- A state in which the hideout's `circleOptions` is the very object that
is the feature's property bag, object 1. -/
def aliasWorld : World :=
  ⟨[ [("type", Val.str "Feature"), ("properties", Val.obj 1)],
     [("pid", Val.str "A1"), ("mean_velocity", Val.num 150)],
     [("hideout", Val.obj 3)],
     [("min", Val.num 0), ("max", Val.num 100), ("colorscale", Val.obj 4),
       ("circleOptions", Val.obj 1), ("colorProp", Val.str "mean_velocity")],
     [("0", Val.str "#000000"), ("1", Val.str "#ffffff")],
     [("0", Val.num 52), ("1", Val.num (-1))] ],
   [], Val.undefined⟩

/-- A state with a registry already in place: `default` holds two entries
of an earlier registration and `custom` a namespace of its own. -/
def registryWorld : World :=
  ⟨[ [("default", Val.obj 1), ("custom", Val.obj 2)],
     [("function0", Val.fn "earlier0"), ("function7", Val.fn "earlier7")],
     [("helper", Val.fn "helper")] ],
   [], Val.obj 0⟩

/-! ## Properties of the object and heap operations -/

theorem lookup_putOwn_same (o : Obj) (k : String) (v : Val) :
    (putOwn o k v).lookup k = some v := by
  induction o with
  | nil => simp [putOwn, List.lookup]
  | cons p rest ih =>
    obtain ⟨k', v'⟩ := p
    by_cases hk : k' = k
    · subst hk
      simp [putOwn, List.lookup]
    · have hk' : (k == k') = false := by
        simpa using fun e => hk e.symm
      simp [putOwn, hk, List.lookup, hk', ih]

theorem lookup_putOwn_other (o : Obj) (k k2 : String) (v : Val) (hne : k2 ≠ k) :
    (putOwn o k v).lookup k2 = o.lookup k2 := by
  induction o with
  | nil =>
    have h2 : (k2 == k) = false := by simpa using hne
    simp [putOwn, List.lookup, h2]
  | cons p rest ih =>
    obtain ⟨k', v'⟩ := p
    by_cases hk : k' = k
    · subst hk
      have h2 : (k2 == k') = false := by simpa using hne
      simp [putOwn, List.lookup, h2]
    · by_cases h3 : k2 = k'
      · subst h3
        simp [putOwn, hk, List.lookup]
      · have h4 : (k2 == k') = false := by simpa using h3
        simp [putOwn, hk, List.lookup, h4, ih]

theorem getOwn_of_lookup_none (o : Obj) (k : String) (hl : o.lookup k = none) :
    getOwn o k = Val.undefined := by
  unfold getOwn
  rw [hl]
  rfl

theorem getOwn_of_lookup_some (o : Obj) (k : String) (v : Val) (hl : o.lookup k = some v) :
    getOwn o k = v := by
  unfold getOwn
  rw [hl]
  rfl

theorem getOwn_putOwn_same (o : Obj) (k : String) (v : Val) :
    getOwn (putOwn o k v) k = v := by
  simp [getOwn, lookup_putOwn_same]

theorem putOwn_putOwn (o : Obj) (k : String) (a b : Val) :
    putOwn (putOwn o k a) k b = putOwn o k b := by
  induction o with
  | nil => simp [putOwn]
  | cons p rest ih =>
    obtain ⟨k', v'⟩ := p
    by_cases hk : k' = k
    · simp [putOwn, hk]
    · simp [putOwn, hk, ih]

theorem getProp_obj (h : Heap) (r : Nat) (o : Obj) (k : String) (ho : h[r]? = some o) :
    getProp h (Val.obj r) k = Except.ok (getOwn o k) := by
  simp [getProp, ho]

theorem setProp_obj (h : Heap) (r : Nat) (o : Obj) (k : String) (v : Val)
    (ho : h[r]? = some o) :
    setProp h (Val.obj r) k v = Except.ok (h.set r (putOwn o k v)) := by
  simp [setProp, ho]

theorem getElem?_set_same (h : Heap) (r : Nat) (o o2 : Obj) (ho : h[r]? = some o) :
    (h.set r o2)[r]? = some o2 := by
  have hlt : r < h.length := by
    by_contra hge
    have : h[r]? = none := List.getElem?_eq_none (Nat.le_of_not_lt hge)
    simp [this] at ho
  simp [List.getElem?_set, hlt]

theorem getElem?_set_other (h : Heap) (r r2 : Nat) (o2 : Obj) (hne : r2 ≠ r) :
    (h.set r o2)[r2]? = h[r2]? := by
  simp [List.getElem?_set, Ne.symm hne]

/-- The run of `function1` when every read succeeds. -/
theorem function1_run {μ : Type} (env : Env μ) (feature latlng context : Val) (w : World)
    (hideout mn mx cs co cp props v : Val) (heap2 : Heap)
    (hh : getProp w.heap context "hideout" = Except.ok hideout)
    (hmn : getProp w.heap hideout "min" = Except.ok mn)
    (hmx : getProp w.heap hideout "max" = Except.ok mx)
    (hcs : getProp w.heap hideout "colorscale" = Except.ok cs)
    (hco : getProp w.heap hideout "circleOptions" = Except.ok co)
    (hcp : getProp w.heap hideout "colorProp" = Except.ok cp)
    (hp : getProp w.heap feature "properties" = Except.ok props)
    (hv : getProp w.heap props (toText env w.heap cp) = Except.ok v)
    (hset : setProp w.heap co "fillColor" (env.scale cs (deref w.heap cs) mn mx v)
      = Except.ok heap2) :
    function1 env feature latlng context w
      = Except.ok (env.circleMarker heap2 latlng co, { w with heap := heap2 }) := by
  simp [function1, hh, hmn, hmx, hcs, hco, hcp, hp, hv, hset, bind, Except.bind, pure,
    Except.pure]

/-- The run of `function1` on a context with a hideout object whose
`circleOptions` is an object, and a feature with a property bag. -/
theorem function1_wellFormed {μ : Type} (env : Env μ) (feature latlng context : Val)
    (w : World) (rh rp ro : Nat) (hb pb ob : Obj)
    (hctx : getProp w.heap context "hideout" = Except.ok (Val.obj rh))
    (hhb : w.heap[rh]? = some hb)
    (hfeat : getProp w.heap feature "properties" = Except.ok (Val.obj rp))
    (hpb : w.heap[rp]? = some pb)
    (hco : getOwn hb "circleOptions" = Val.obj ro)
    (hob : w.heap[ro]? = some ob) :
    function1 env feature latlng context w
      = Except.ok
        (env.circleMarker
          (w.heap.set ro (putOwn ob "fillColor"
            (env.scale (getOwn hb "colorscale") (deref w.heap (getOwn hb "colorscale"))
              (getOwn hb "min") (getOwn hb "max")
              (getOwn pb (toText env w.heap (getOwn hb "colorProp"))))))
          latlng (Val.obj ro),
        { w with heap := w.heap.set ro (putOwn ob "fillColor"
            (env.scale (getOwn hb "colorscale") (deref w.heap (getOwn hb "colorscale"))
              (getOwn hb "min") (getOwn hb "max")
              (getOwn pb (toText env w.heap (getOwn hb "colorProp"))))) }) := by
  apply function1_run env feature latlng context w (Val.obj rh) (getOwn hb "min")
    (getOwn hb "max") (getOwn hb "colorscale") (Val.obj ro) (getOwn hb "colorProp")
    (Val.obj rp) (getOwn pb (toText env w.heap (getOwn hb "colorProp")))
  · exact hctx
  · exact getProp_obj _ _ _ _ hhb
  · exact getProp_obj _ _ _ _ hhb
  · exact getProp_obj _ _ _ _ hhb
  · rw [getProp_obj _ _ _ _ hhb, hco]
  · exact getProp_obj _ _ _ _ hhb
  · exact hfeat
  · exact getProp_obj _ _ _ _ hpb
  · exact setProp_obj _ _ _ _ _ hob

theorem bind_eq_ok {α β : Type} (x : Except Err α) (f : α → Except Err β) (b : β)
    (h : (x >>= f) = Except.ok b) : ∃ a, x = Except.ok a ∧ f a = Except.ok b := by
  cases x with
  | error e => exact Except.noConfusion h
  | ok a => exact ⟨a, rfl, h⟩

/-- What a property write leaves alone: the number of objects, every other
object, and every other key of the object written. -/
theorem setProp_frame (h h2 : Heap) (co : Val) (k : String) (v : Val)
    (hset : setProp h co k v = Except.ok h2) :
    h2.length = h.length
      ∧ (∀ r : Nat, co ≠ Val.obj r → h2[r]? = h[r]?)
      ∧ (∀ (r : Nat) (k2 : String), k2 ≠ k → field h2 r k2 = field h r k2) := by
  cases co with
  | obj ro =>
    cases hro : h[ro]? with
    | none => simp [setProp, hro] at hset
    | some ob =>
      simp only [setProp, hro, Except.ok.injEq] at hset
      subst hset
      refine ⟨by simp, ?_, ?_⟩
      · intro r hne
        exact getElem?_set_other _ _ _ _ (fun e => hne (by rw [e]))
      · intro r k2 hk
        unfold field
        by_cases hr : r = ro
        · subst hr
          rw [getElem?_set_same _ _ _ _ hro, hro]
          simp [lookup_putOwn_other _ _ _ _ hk]
        · rw [getElem?_set_other _ _ _ _ hr]
  | undefined => simp [setProp] at hset
  | null => simp [setProp] at hset
  | bool b =>
    simp only [setProp, Except.ok.injEq] at hset
    subst hset
    exact ⟨rfl, fun _ _ => rfl, fun _ _ _ => rfl⟩
  | num x =>
    simp only [setProp, Except.ok.injEq] at hset
    subst hset
    exact ⟨rfl, fun _ _ => rfl, fun _ _ _ => rfl⟩
  | str x =>
    simp only [setProp, Except.ok.injEq] at hset
    subst hset
    exact ⟨rfl, fun _ _ => rfl, fun _ _ _ => rfl⟩
  | fn x =>
    simp only [setProp, Except.ok.injEq] at hset
    subst hset
    exact ⟨rfl, fun _ _ => rfl, fun _ _ _ => rfl⟩
  | color x =>
    simp only [setProp, Except.ok.injEq] at hset
    subst hset
    exact ⟨rfl, fun _ _ => rfl, fun _ _ _ => rfl⟩

/-- A property read sees the heap only through the field it reads. -/
theorem getProp_congr (h h2 : Heap) (base : Val) (k : String)
    (hf : ∀ r : Nat, field h2 r k = field h r k) :
    getProp h2 base k = getProp h base k := by
  cases base with
  | obj r =>
    have hr := hf r
    unfold field at hr
    cases h1 : h[r]? with
    | none =>
      cases h3 : h2[r]? with
      | none => simp [getProp, h1, h3]
      | some o2 => simp [h1, h3] at hr
    | some o =>
      cases h3 : h2[r]? with
      | none => simp [h1, h3] at hr
      | some o2 =>
        simp only [h1, h3, Option.map_some', Option.some.injEq] at hr
        simp [getProp, h1, h3, getOwn, hr]
  | undefined => rfl
  | null => rfl
  | bool b => rfl
  | num x => rfl
  | str x => rfl
  | fn x => rfl
  | color x => rfl

/-- A call of `function1` that returns has read the hideout and its
`circleOptions`, has done one property write, on `circleOptions.fillColor`,
and has built the marker on the resulting heap. -/
theorem function1_inv {μ : Type} (env : Env μ) (feature latlng context : Val)
    (w w2 : World) (m : μ)
    (hrun : function1 env feature latlng context w = Except.ok (m, w2)) :
    ∃ hideout co colour,
      getProp w.heap context "hideout" = Except.ok hideout
      ∧ getProp w.heap hideout "circleOptions" = Except.ok co
      ∧ setProp w.heap co "fillColor" colour = Except.ok w2.heap
      ∧ w2.tooltips = w.tooltips
      ∧ w2.dashExtensions = w.dashExtensions
      ∧ m = env.circleMarker w2.heap latlng co := by
  unfold function1 at hrun
  obtain ⟨hideout, hh, hrun⟩ := bind_eq_ok _ _ _ hrun
  obtain ⟨mn, _, hrun⟩ := bind_eq_ok _ _ _ hrun
  obtain ⟨mx, _, hrun⟩ := bind_eq_ok _ _ _ hrun
  obtain ⟨cs, _, hrun⟩ := bind_eq_ok _ _ _ hrun
  obtain ⟨co, hco, hrun⟩ := bind_eq_ok _ _ _ hrun
  obtain ⟨cp, _, hrun⟩ := bind_eq_ok _ _ _ hrun
  obtain ⟨props, _, hrun⟩ := bind_eq_ok _ _ _ hrun
  obtain ⟨value, _, hrun⟩ := bind_eq_ok _ _ _ hrun
  obtain ⟨heap2, hset, hrun⟩ := bind_eq_ok _ _ _ hrun
  simp only [pure, Except.pure, Except.ok.injEq, Prod.mk.injEq] at hrun
  obtain ⟨hm, hw⟩ := hrun
  subst hw
  exact ⟨hideout, co, _, hh, hco, hset, rfl, rfl, hm.symm⟩

/-- A call of `function0` that returns has left the heap and the registry
slot as they were and has added one entry to the tooltip log. -/
theorem function0_inv {μ : Type} (env : Env μ) (feature context : Val) (layer : Nat)
    (w w2 : World) (hrun : function0 env feature layer context w = Except.ok w2) :
    w2.heap = w.heap ∧ w2.dashExtensions = w.dashExtensions
      ∧ ∃ text, w2.tooltips = w.tooltips ++ [(layer, text)] := by
  unfold function0 at hrun
  obtain ⟨props, _, hrun⟩ := bind_eq_ok _ _ _ hrun
  obtain ⟨pid, _, hrun⟩ := bind_eq_ok _ _ _ hrun
  obtain ⟨props2, _, hrun⟩ := bind_eq_ok _ _ _ hrun
  obtain ⟨mv, _, hrun⟩ := bind_eq_ok _ _ _ hrun
  simp only [pure, Except.pure, Except.ok.injEq] at hrun
  subst hrun
  exact ⟨rfl, rfl, _, rfl⟩

theorem lerp_zero (a b : RGB) : lerp a b 0 = a := by
  simp [lerp]

theorem lerp_one (a b : RGB) : lerp a b 1 = b := by
  simp [lerp]

theorem lerp_half (a b : RGB) : lerp a b (1 / 2) = midpoint a b := by
  simp only [lerp, midpoint, RGB.mk.injEq]
  refine ⟨?_, ?_, ?_⟩ <;> ring

/-- On two stops the modelled scale is the linear interpolation at
`(x - mn) / (mx - mn)` over the whole domain. -/
theorem scaleAt_two (flat : RGB → List RGB → ℚ → ℚ → RGB) (c0 c1 : RGB) (mn mx x : ℚ)
    (hlt : mn < mx) (hlo : mn ≤ x) (hhi : x ≤ mx) :
    scaleAt flat [c0, c1] mn mx x = some (lerp c0 c1 ((x - mn) / (mx - mn))) := by
  have hpos : 0 < mx - mn := sub_pos.mpr hlt
  simp only [scaleAt]
  rw [if_neg (ne_of_lt hlt)]
  by_cases h1 : x ≤ mn
  · have hx : x = mn := le_antisymm h1 hlo
    subst hx
    simp [lerp_zero]
  · by_cases h2 : mx ≤ x
    · have hx : x = mx := le_antisymm hhi h2
      subst hx
      rw [if_neg h1, if_pos h2, div_self (ne_of_gt hpos), lerp_one]
      rfl
    · rw [if_neg h1, if_neg h2]
      have ht : (x - mn) / (mx - mn) ≤ 1 := by
        rw [div_le_one hpos]
        linarith
      simp [stopsAt, ht]

/-- Below the domain the modelled scale gives its first colour. -/
theorem scaleAt_below (flat : RGB → List RGB → ℚ → ℚ → RGB) (c : RGB) (rest : List RGB)
    (mn mx x : ℚ) (hlt : mn < mx) (hx : x < mn) :
    scaleAt flat (c :: rest) mn mx x = some c := by
  simp only [scaleAt]
  rw [if_neg (ne_of_lt hlt), if_pos (le_of_lt hx)]

/-- Above the domain the modelled scale gives its last colour. -/
theorem scaleAt_above (flat : RGB → List RGB → ℚ → ℚ → RGB) (c : RGB) (rest : List RGB)
    (mn mx x : ℚ) (hlt : mn < mx) (hx : mx < x) :
    scaleAt flat (c :: rest) mn mx x = some (rest.getLastD c) := by
  simp only [scaleAt]
  rw [if_neg (ne_of_lt hlt), if_neg (not_le.mpr (lt_trans hlt hx)), if_pos (le_of_lt hx)]

/-- The modelled scale on a numeric domain, a numeric value and a sequence
of colours `c :: rest` answers a colour, the one `scaleAt` names. -/
theorem specScale_color (parse : String → Option RGB) (fallback : Val)
    (flat : RGB → List RGB → ℚ → ℚ → RGB) (cs : Val) (so : Obj) (c : RGB) (rest : List RGB)
    (mn mx x : ℚ) (col : RGB)
    (hstops : stopColors parse (arrayElems so) = some (c :: rest))
    (hcol : scaleAt flat (c :: rest) mn mx x = some col) :
    specScale parse fallback flat cs (some so) (Val.num mn) (Val.num mx) (Val.num x)
      = Val.color col := by
  simp only [specScale, hstops, hcol]

/-- Two distinct colours are interpolated to the same colour at one
parameter only. -/
theorem lerp_inj (a b : RGB) (hab : a ≠ b) (s t : ℚ) (h : lerp a b s = lerp a b t) :
    s = t := by
  by_contra hst
  have hd : s - t ≠ 0 := sub_ne_zero.mpr hst
  simp only [lerp, RGB.mk.injEq] at h
  obtain ⟨hr, hg, hb⟩ := h
  have zr : (b.r - a.r) * (s - t) = 0 := by linarith
  have zg : (b.g - a.g) * (s - t) = 0 := by linarith
  have zb : (b.b - a.b) * (s - t) = 0 := by linarith
  have er : b.r - a.r = 0 := (mul_eq_zero.mp zr).resolve_right hd
  have eg : b.g - a.g = 0 := (mul_eq_zero.mp zg).resolve_right hd
  have eb : b.b - a.b = 0 := (mul_eq_zero.mp zb).resolve_right hd
  apply hab
  cases a
  cases b
  simp only [RGB.mk.injEq]
  simp only at er eg eb
  exact ⟨by linarith, by linarith, by linarith⟩

/-- The colour the sample scale gives the value 20 on the domain `[0, 100]`
from black to white. -/
theorem sampleEnv_scale_20 :
    sampleEnv.scale (Val.obj 4) (some [("0", Val.str "#000000"), ("1", Val.str "#ffffff")])
      (Val.num 0) (Val.num 100) (Val.num 20) = Val.color ⟨51, 51, 51⟩ := by
  have h1 : stopColors hexColor
      (arrayElems [("0", Val.str "#000000"), ("1", Val.str "#ffffff")])
      = some [⟨0, 0, 0⟩, ⟨255, 255, 255⟩] := by decide
  simp only [sampleEnv, specScale, h1]
  norm_num [scaleAt, stopsAt, lerp]

/-- The colour the sample scale gives the value 50 on the domain `[0, 100]`
from black to white: mid-gray. -/
theorem sampleEnv_scale_50 :
    sampleEnv.scale (Val.obj 4) (some [("0", Val.str "#000000"), ("1", Val.str "#ffffff")])
      (Val.num 0) (Val.num 100) (Val.num 50) = Val.color ⟨255 / 2, 255 / 2, 255 / 2⟩ := by
  have h1 : stopColors hexColor
      (arrayElems [("0", Val.str "#000000"), ("1", Val.str "#ffffff")])
      = some [⟨0, 0, 0⟩, ⟨255, 255, 255⟩] := by decide
  simp only [sampleEnv, specScale, h1]
  norm_num [scaleAt, stopsAt, lerp]

/-! ## The tooltip binder -/

/-- C1: for a feature whose property bag defines both `pid` and
`mean_velocity`, and for every layer and context, `function0` returns
normally and the layer receives exactly one more `bindTooltip` call, with
the text of `pid`, one space, an opening parenthesis, the text of
`mean_velocity` and a closing parenthesis; nothing else changes.  A string
is its own text and the text of a number is the engine's text of exactly
that number, so a string `pid` and a numeric `mean_velocity` are inserted
verbatim. -/
theorem function0_binds_tooltip {μ : Type} (env : Env μ) (feature context : Val)
    (layer : Nat) (w : World) (rp : Nat) (bag : Obj) (pid mv : Val)
    (hfeat : getProp w.heap feature "properties" = Except.ok (Val.obj rp))
    (hbag : w.heap[rp]? = some bag)
    (hpid : bag.lookup "pid" = some pid)
    (hmv : bag.lookup "mean_velocity" = some mv) :
    function0 env feature layer context w
        = Except.ok { w with tooltips := w.tooltips ++
            [(layer, toText env w.heap pid ++ " (" ++ toText env w.heap mv ++ ")")] }
      ∧ ∀ (s : String) (x : ℚ), pid = Val.str s → mv = Val.num x →
          function0 env feature layer context w
            = Except.ok { w with tooltips := w.tooltips ++
                [(layer, s ++ " (" ++ env.numberText x ++ ")")] } := by
  have main : function0 env feature layer context w
        = Except.ok { w with tooltips := w.tooltips ++
            [(layer, toText env w.heap pid ++ " (" ++ toText env w.heap mv ++ ")")] } := by
    simp [function0, hfeat, getProp_obj _ _ _ _ hbag, getOwn, hpid, hmv, bind, Except.bind,
      pure, Except.pure]
  refine ⟨main, ?_⟩
  intro s x hs hx
  subst hs
  subst hx
  simpa [toText] using main

/-- A feature `{pid: "A1", mean_velocity: 50}` on layer 7 gets the tooltip
`"A1 (50)"`. -/
theorem function0_binds_tooltip_witness :
    function0 sampleEnv (Val.obj 0) 7 Val.undefined
        ⟨[[("type", Val.str "Feature"), ("properties", Val.obj 1)],
          [("pid", Val.str "A1"), ("mean_velocity", Val.num 50)]], [], Val.undefined⟩
      = Except.ok
        ⟨[[("type", Val.str "Feature"), ("properties", Val.obj 1)],
          [("pid", Val.str "A1"), ("mean_velocity", Val.num 50)]], [(7, "A1 (50)")],
          Val.undefined⟩ :=
  (function0_binds_tooltip sampleEnv (Val.obj 0) Val.undefined 7
    ⟨[[("type", Val.str "Feature"), ("properties", Val.obj 1)],
      [("pid", Val.str "A1"), ("mean_velocity", Val.num 50)]], [], Val.undefined⟩
    1 [("pid", Val.str "A1"), ("mean_velocity", Val.num 50)] (Val.str "A1") (Val.num 50)
    rfl rfl rfl rfl).1

/-- C7: for a feature with a property bag in which `pid`, `mean_velocity` or
both are absent, `function0` raises no error and the layer still receives
exactly one `bindTooltip` call; an absent value appears in the text as
`undefined` and a present one as its own text. -/
theorem function0_absent_property {μ : Type} (env : Env μ) (feature context : Val)
    (layer : Nat) (w : World) (rp : Nat) (bag : Obj)
    (hfeat : getProp w.heap feature "properties" = Except.ok (Val.obj rp))
    (hbag : w.heap[rp]? = some bag) :
    ∃ text : String,
      function0 env feature layer context w
        = Except.ok { w with tooltips := w.tooltips ++ [(layer, text)] }
      ∧ (∀ mv, bag.lookup "pid" = none → bag.lookup "mean_velocity" = some mv →
          text = "undefined" ++ " (" ++ toText env w.heap mv ++ ")")
      ∧ (∀ pid, bag.lookup "pid" = some pid → bag.lookup "mean_velocity" = none →
          text = toText env w.heap pid ++ " (" ++ "undefined" ++ ")")
      ∧ (bag.lookup "pid" = none → bag.lookup "mean_velocity" = none →
          text = "undefined (undefined)") := by
  refine ⟨toText env w.heap (getOwn bag "pid") ++ " ("
    ++ toText env w.heap (getOwn bag "mean_velocity") ++ ")", ?_, ?_, ?_, ?_⟩
  · simp [function0, hfeat, getProp_obj _ _ _ _ hbag, bind, Except.bind, pure, Except.pure]
  · intro mv h1 h2
    simp [getOwn, h1, h2, toText]
  · intro pid h1 h2
    simp [getOwn, h1, h2, toText]
  · intro h1 h2
    simp [getOwn, h1, h2, toText]

/-- A feature whose bag holds only `pid: "A1"` gets the tooltip
`"A1 (undefined)"`. -/
theorem function0_absent_property_witness :
    ∃ text : String,
      function0 sampleEnv (Val.obj 0) 7 Val.undefined
          ⟨[[("properties", Val.obj 1)], [("pid", Val.str "A1")]], [], Val.undefined⟩
        = Except.ok ⟨[[("properties", Val.obj 1)], [("pid", Val.str "A1")]], [(7, text)],
            Val.undefined⟩
      ∧ text = "A1 (undefined)" := by
  obtain ⟨text, hrun, _, hpid, _⟩ :=
    function0_absent_property sampleEnv (Val.obj 0) Val.undefined 7
      ⟨[[("properties", Val.obj 1)], [("pid", Val.str "A1")]], [], Val.undefined⟩
      1 [("pid", Val.str "A1")] rfl rfl
  exact ⟨text, hrun, by rw [hpid (Val.str "A1") rfl rfl]; decide⟩

/-! ## The coloured marker factory -/

/-- C2: for a context whose hideout object holds `min`, `max`, `colorscale`,
`colorProp` and an options object `circleOptions`, and a feature with a
property bag, `function1` returns and afterwards `circleOptions.fillColor`
is the colour scale built from the hideout's `colorscale` and the domain
`[min, max]`, in that order, applied to `feature.properties[colorProp]`:
the colour is a function of these values alone. -/
theorem function1_fillColor {μ : Type} (env : Env μ) (feature latlng context : Val)
    (w : World) (rh rp ro : Nat) (hb pb ob : Obj)
    (hctx : getProp w.heap context "hideout" = Except.ok (Val.obj rh))
    (hhb : w.heap[rh]? = some hb)
    (hfeat : getProp w.heap feature "properties" = Except.ok (Val.obj rp))
    (hpb : w.heap[rp]? = some pb)
    (hco : getOwn hb "circleOptions" = Val.obj ro)
    (hob : w.heap[ro]? = some ob) :
    ∃ (m : μ) (w2 : World),
      function1 env feature latlng context w = Except.ok (m, w2)
      ∧ getProp w2.heap (Val.obj ro) "fillColor"
        = Except.ok
          (env.scale (getOwn hb "colorscale") (deref w.heap (getOwn hb "colorscale"))
            (getOwn hb "min") (getOwn hb "max")
            (getOwn pb (toText env w.heap (getOwn hb "colorProp")))) := by
  refine ⟨_, _, function1_wellFormed env feature latlng context w rh rp ro hb pb ob
    hctx hhb hfeat hpb hco hob, ?_⟩
  rw [getProp_obj _ _ _ _ (getElem?_set_same _ _ _ _ hob), getOwn_putOwn_same]

/-- On the sample heap, the feature `{pid: "A1", mean_velocity: 50}` with the
domain `[0, 100]` and the scale from black to white leaves mid-gray in
`circleOptions.fillColor`. -/
theorem function1_fillColor_witness :
    ∃ (m : Marker) (w2 : World),
      function1 sampleEnv (Val.obj 0) (Val.obj 6) (Val.obj 2) sampleWorld = Except.ok (m, w2)
      ∧ getProp w2.heap (Val.obj 5) "fillColor"
        = Except.ok (Val.color ⟨255 / 2, 255 / 2, 255 / 2⟩) := by
  obtain ⟨m, w2, hrun, hfill⟩ :=
    function1_fillColor sampleEnv (Val.obj 0) (Val.obj 6) (Val.obj 2) sampleWorld 3 1 5
      [("min", Val.num 0), ("max", Val.num 100), ("colorscale", Val.obj 4),
        ("circleOptions", Val.obj 5), ("colorProp", Val.str "mean_velocity")]
      [("pid", Val.str "A1"), ("mean_velocity", Val.num 50)]
      [("radius", Val.num 5), ("fillOpacity", Val.num 1)]
      rfl rfl rfl rfl rfl rfl
  exact ⟨m, w2, hrun, hfill.trans (congrArg Except.ok sampleEnv_scale_50)⟩

/-- C3: the marker `function1` returns is the one the constructor builds from
the coordinate value the caller passed, untouched, and the `circleOptions`
reference, on the heap in which `circleOptions.fillColor` already holds
the colour computed by this call. -/
theorem function1_marker {μ : Type} (env : Env μ) (feature latlng context : Val)
    (w : World) (rh rp ro : Nat) (hb pb ob : Obj)
    (hctx : getProp w.heap context "hideout" = Except.ok (Val.obj rh))
    (hhb : w.heap[rh]? = some hb)
    (hfeat : getProp w.heap feature "properties" = Except.ok (Val.obj rp))
    (hpb : w.heap[rp]? = some pb)
    (hco : getOwn hb "circleOptions" = Val.obj ro)
    (hob : w.heap[ro]? = some ob) :
    ∃ (w2 : World),
      function1 env feature latlng context w
        = Except.ok (env.circleMarker w2.heap latlng (Val.obj ro), w2)
      ∧ getProp w2.heap (Val.obj ro) "fillColor"
        = Except.ok
          (env.scale (getOwn hb "colorscale") (deref w.heap (getOwn hb "colorscale"))
            (getOwn hb "min") (getOwn hb "max")
            (getOwn pb (toText env w.heap (getOwn hb "colorProp")))) := by
  refine ⟨⟨_, _, _⟩, function1_wellFormed env feature latlng context w rh rp ro hb pb ob
    hctx hhb hfeat hpb hco hob, ?_⟩
  rw [getProp_obj _ _ _ _ (getElem?_set_same _ _ _ _ hob), getOwn_putOwn_same]

/-- On the sample heap, the marker returned for the coordinate object 6 holds
that very reference and the options reference 5, built on the heap that
already has the new fill colour. -/
theorem function1_marker_witness :
    ∃ (w2 : World),
      function1 sampleEnv (Val.obj 0) (Val.obj 6) (Val.obj 2) sampleWorld
        = Except.ok (⟨Val.obj 6, Val.obj 5, w2.heap[5]?⟩, w2)
      ∧ getProp w2.heap (Val.obj 5) "fillColor"
        = Except.ok (Val.color ⟨255 / 2, 255 / 2, 255 / 2⟩) := by
  obtain ⟨w2, hrun, hfill⟩ :=
    function1_marker sampleEnv (Val.obj 0) (Val.obj 6) (Val.obj 2) sampleWorld 3 1 5
      [("min", Val.num 0), ("max", Val.num 100), ("colorscale", Val.obj 4),
        ("circleOptions", Val.obj 5), ("colorProp", Val.str "mean_velocity")]
      [("pid", Val.str "A1"), ("mean_velocity", Val.num 50)]
      [("radius", Val.num 5), ("fillOpacity", Val.num 1)]
      rfl rfl rfl rfl rfl rfl
  exact ⟨w2, hrun, hfill.trans (congrArg Except.ok sampleEnv_scale_50)⟩

/-- C8: for a feature with a property bag, whatever the bag holds under the
key named by `colorProp`, `function1` raises no error: the value read, which
is `undefined` when the key is missing, goes to the colour scale as it is,
the colour the scale answers is stored in `circleOptions.fillColor`, and the
marker built at the given coordinate is returned. -/
theorem function1_invalid_value {μ : Type} (env : Env μ) (feature latlng context : Val)
    (w : World) (rh rp ro : Nat) (hb pb ob : Obj)
    (hctx : getProp w.heap context "hideout" = Except.ok (Val.obj rh))
    (hhb : w.heap[rh]? = some hb)
    (hfeat : getProp w.heap feature "properties" = Except.ok (Val.obj rp))
    (hpb : w.heap[rp]? = some pb)
    (hco : getOwn hb "circleOptions" = Val.obj ro)
    (hob : w.heap[ro]? = some ob)
    (hbad : ∀ x : ℚ, pb.lookup (toText env w.heap (getOwn hb "colorProp")) ≠ some (Val.num x)) :
    ∃ (w2 : World) (value : Val),
      function1 env feature latlng context w
        = Except.ok (env.circleMarker w2.heap latlng (Val.obj ro), w2)
      ∧ getProp w2.heap (Val.obj ro) "fillColor"
        = Except.ok
          (env.scale (getOwn hb "colorscale") (deref w.heap (getOwn hb "colorscale"))
            (getOwn hb "min") (getOwn hb "max") value)
      ∧ (∀ x : ℚ, value ≠ Val.num x)
      ∧ (pb.lookup (toText env w.heap (getOwn hb "colorProp")) = none
          → value = Val.undefined)
      ∧ (∀ v, pb.lookup (toText env w.heap (getOwn hb "colorProp")) = some v
          → value = v) := by
  refine ⟨⟨_, _, _⟩, getOwn pb (toText env w.heap (getOwn hb "colorProp")),
    function1_wellFormed env feature latlng context w rh rp ro hb pb ob
      hctx hhb hfeat hpb hco hob, ?_, ?_, ?_, ?_⟩
  · rw [getProp_obj _ _ _ _ (getElem?_set_same _ _ _ _ hob), getOwn_putOwn_same]
  · intro x hx
    cases hl : pb.lookup (toText env w.heap (getOwn hb "colorProp")) with
    | none =>
      rw [getOwn_of_lookup_none _ _ hl] at hx
      exact Val.noConfusion hx
    | some v =>
      rw [getOwn_of_lookup_some _ _ _ hl] at hx
      exact hbad x (by rw [hl, hx])
  · intro hl
    exact getOwn_of_lookup_none _ _ hl
  · intro v hl
    exact getOwn_of_lookup_some _ _ _ hl

/-- On the sample heap, the feature `{pid: "D4"}` has no `mean_velocity`: the
call returns its marker and the fill colour is the fallback of the sample
scale, `undefined`. -/
theorem function1_invalid_value_witness :
    ∃ (w2 : World),
      function1 sampleEnv (Val.obj 11) (Val.obj 6) (Val.obj 2) sampleWorld
        = Except.ok (⟨Val.obj 6, Val.obj 5, w2.heap[5]?⟩, w2)
      ∧ getProp w2.heap (Val.obj 5) "fillColor" = Except.ok Val.undefined := by
  obtain ⟨w2, value, hrun, hfill, _, hmissing, _⟩ :=
    function1_invalid_value sampleEnv (Val.obj 11) (Val.obj 6) (Val.obj 2) sampleWorld 3 12 5
      [("min", Val.num 0), ("max", Val.num 100), ("colorscale", Val.obj 4),
        ("circleOptions", Val.obj 5), ("colorProp", Val.str "mean_velocity")]
      [("pid", Val.str "D4")]
      [("radius", Val.num 5), ("fillOpacity", Val.num 1)]
      rfl rfl rfl rfl rfl rfl (fun x hx => by cases hx)
  have hv : value = Val.undefined := hmissing rfl
  subst hv
  exact ⟨w2, hrun, hfill⟩

/-! ## What the callbacks leave unchanged -/

/-- The run of `function0` on the first sample feature. -/
theorem function0_sample_run (env : Env Marker) :
    function0 env (Val.obj 0) 7 (Val.obj 2) sampleWorld
      = Except.ok { sampleWorld with tooltips := sampleWorld.tooltips ++
          [(7, toText env sampleWorld.heap (Val.str "A1") ++ " ("
            ++ toText env sampleWorld.heap (Val.num 50) ++ ")")] } := by
  simp [function0, getProp, sampleWorld, sampleHeap, getOwn, List.lookup, bind, Except.bind,
    pure, Except.pure]

/-- C9, as the code has it: a call of `function1` writes exactly one field.
For every call that returns, with `co` the `circleOptions` it read from the
hideout: every object other than `co` is after the call what it was before,
so the feature, its property bag and the coordinate are unchanged whenever
they are not the options object itself; in every object every key other
than `fillColor` is present or absent as before, with the same value, so
are the other fields of `circleOptions`; the hideout answers `min`, `max`,
`colorscale` and `colorProp`, every key other than `fillColor`, as before;
no object is created, and the tooltip log and the registry slot are
untouched.  Apart from that, every call of `function0` that returns leaves
the whole heap, the feature and the context in it, and the registry slot
unchanged. -/
theorem callbacks_frame {μ : Type} (env : Env μ)
    (feature latlng context feature0 context0 : Val) (layer : Nat) (w : World) :
    (∀ (m : μ) (w1 : World),
        function1 env feature latlng context w = Except.ok (m, w1) →
        ∃ hideout co,
          getProp w.heap context "hideout" = Except.ok hideout
          ∧ getProp w.heap hideout "circleOptions" = Except.ok co
          ∧ (∀ r : Nat, co ≠ Val.obj r → w1.heap[r]? = w.heap[r]?)
          ∧ (∀ (r : Nat) (k : String), k ≠ "fillColor" →
              field w1.heap r k = field w.heap r k)
          ∧ (∀ k : String, k ≠ "fillColor" →
              getProp w1.heap hideout k = getProp w.heap hideout k)
          ∧ w1.heap.length = w.heap.length
          ∧ w1.tooltips = w.tooltips
          ∧ w1.dashExtensions = w.dashExtensions)
      ∧ (∀ w0 : World,
          function0 env feature0 layer context0 w = Except.ok w0 →
          w0.heap = w.heap ∧ w0.dashExtensions = w.dashExtensions) := by
  constructor
  · intro m w1 h1
    obtain ⟨hideout, co, colour, hh, hco, hset, ht, hd, _⟩ :=
      function1_inv env feature latlng context w w1 m h1
    obtain ⟨hlen, hother, hkeys⟩ := setProp_frame _ _ _ _ _ hset
    exact ⟨hideout, co, hh, hco, hother, hkeys,
      fun k hk => getProp_congr _ _ _ _ (fun r => hkeys r k hk), hlen, ht, hd⟩
  · intro w0 h0
    obtain ⟨hheap0, hd0, _⟩ := function0_inv env feature0 context0 layer w w0 h0
    exact ⟨hheap0, hd0⟩

/-- On the sample heap: the two callbacks return, `function1` changes nothing
but the options object 5, in which `radius` and `fillOpacity` keep their
values, and `function0` changes no object. -/
theorem callbacks_frame_witness :
    ∃ (m : Marker) (w1 w0 : World),
      function1 sampleEnv (Val.obj 0) (Val.obj 6) (Val.obj 2) sampleWorld = Except.ok (m, w1)
      ∧ function0 sampleEnv (Val.obj 0) 7 (Val.obj 2) sampleWorld = Except.ok w0
      ∧ (∀ r : Nat, r ≠ 5 → w1.heap[r]? = sampleHeap[r]?)
      ∧ (∀ k : String, k ≠ "fillColor" → field w1.heap 5 k = field sampleHeap 5 k)
      ∧ w0.heap = sampleHeap := by
  have hrun1 := function1_wellFormed sampleEnv (Val.obj 0) (Val.obj 6) (Val.obj 2)
    sampleWorld 3 1 5
    [("min", Val.num 0), ("max", Val.num 100), ("colorscale", Val.obj 4),
      ("circleOptions", Val.obj 5), ("colorProp", Val.str "mean_velocity")]
    [("pid", Val.str "A1"), ("mean_velocity", Val.num 50)]
    [("radius", Val.num 5), ("fillOpacity", Val.num 1)]
    rfl rfl rfl rfl rfl rfl
  have hrun0 := function0_sample_run sampleEnv
  obtain ⟨hframe1, hframe0⟩ :=
    callbacks_frame sampleEnv (Val.obj 0) (Val.obj 6) (Val.obj 2) (Val.obj 0) (Val.obj 2) 7
      sampleWorld
  obtain ⟨hideout, co, hh, hco, hother, hkeys, _, _, _, _⟩ := hframe1 _ _ hrun1
  obtain ⟨hheap0, _⟩ := hframe0 _ hrun0
  have hhid : hideout = Val.obj 3 := by
    have : getProp sampleWorld.heap (Val.obj 2) "hideout" = Except.ok (Val.obj 3) := rfl
    rw [this] at hh
    exact (Except.ok.inj hh).symm
  subst hhid
  have hco5 : co = Val.obj 5 := by
    have : getProp sampleWorld.heap (Val.obj 3) "circleOptions" = Except.ok (Val.obj 5) := rfl
    rw [this] at hco
    exact (Except.ok.inj hco).symm
  subst hco5
  refine ⟨_, _, _, hrun1, hrun0, ?_, ?_, hheap0⟩
  · intro r hr
    exact hother r (fun e => hr (Val.obj.inj e).symm)
  · intro k hk
    exact hkeys 5 k hk

/-- C9, as stated, fails: in this state the hideout's `circleOptions` is
object 1, the very object that is the feature's property bag.  The call
returns and the property bag of the feature, `{pid, mean_velocity}` before
the call, holds a third entry `fillColor` after it: the feature's property
bag is not left unchanged. -/
theorem function1_changes_aliased_bag :
    getProp aliasWorld.heap (Val.obj 0) "properties" = Except.ok (Val.obj 1)
      ∧ getProp aliasWorld.heap (Val.obj 3) "circleOptions" = Except.ok (Val.obj 1)
      ∧ aliasWorld.heap[1]?
        = some [("pid", Val.str "A1"), ("mean_velocity", Val.num 150)]
      ∧ function1 sampleEnv (Val.obj 0) (Val.obj 5) (Val.obj 2) aliasWorld
        = Except.ok
          (⟨Val.obj 5, Val.obj 1,
            some [("pid", Val.str "A1"), ("mean_velocity", Val.num 150),
              ("fillColor", Val.color ⟨255, 255, 255⟩)]⟩,
           ⟨aliasWorld.heap.set 1 [("pid", Val.str "A1"), ("mean_velocity", Val.num 150),
              ("fillColor", Val.color ⟨255, 255, 255⟩)], [], Val.undefined⟩)
      ∧ (aliasWorld.heap.set 1 [("pid", Val.str "A1"), ("mean_velocity", Val.num 150),
              ("fillColor", Val.color ⟨255, 255, 255⟩)])[1]?
        ≠ aliasWorld.heap[1]? :=
  ⟨rfl, rfl, rfl, rfl, by decide⟩

/-! ## Two calls on one options object -/

/-- C6, as the code has it: two calls of `function1` in sequence that share the
options object `ro`.  The first call returns and leaves in
`circleOptions.fillColor` the scale of its hideout at its feature's value.
Every second call, on the state the first one left, with a hideout and a
property bag as they are then, returns and leaves in
`circleOptions.fillColor` the scale of its own hideout at its own feature's
value, and the heap is then the heap before the first call with
`fillColor` set by the second call: nothing of the first call's colour
remains.  With the colour scale as the spec describes it, the same two
distinct colours and the same domain `min < max` in both calls, two
different values inside `[min, max]` give two different fill colours. -/
theorem function1_last_write_wins {μ : Type} (env : Env μ)
    (feature1 latlng1 context1 feature2 latlng2 context2 : Val) (w : World)
    (rh1 rp1 ro : Nat) (hb1 pb1 ob : Obj)
    (hctx1 : getProp w.heap context1 "hideout" = Except.ok (Val.obj rh1))
    (hhb1 : w.heap[rh1]? = some hb1)
    (hfeat1 : getProp w.heap feature1 "properties" = Except.ok (Val.obj rp1))
    (hpb1 : w.heap[rp1]? = some pb1)
    (hco1 : getOwn hb1 "circleOptions" = Val.obj ro)
    (hob : w.heap[ro]? = some ob) :
    ∃ (m1 : μ) (w1 : World),
      function1 env feature1 latlng1 context1 w = Except.ok (m1, w1)
      ∧ w1.heap = w.heap.set ro (putOwn ob "fillColor"
          (env.scale (getOwn hb1 "colorscale") (deref w.heap (getOwn hb1 "colorscale"))
            (getOwn hb1 "min") (getOwn hb1 "max")
            (getOwn pb1 (toText env w.heap (getOwn hb1 "colorProp")))))
      ∧ getProp w1.heap (Val.obj ro) "fillColor"
        = Except.ok
          (env.scale (getOwn hb1 "colorscale") (deref w.heap (getOwn hb1 "colorscale"))
            (getOwn hb1 "min") (getOwn hb1 "max")
            (getOwn pb1 (toText env w.heap (getOwn hb1 "colorProp"))))
      ∧ ∀ (rh2 rp2 : Nat) (hb2 pb2 : Obj),
          getProp w1.heap context2 "hideout" = Except.ok (Val.obj rh2) →
          w1.heap[rh2]? = some hb2 →
          getProp w1.heap feature2 "properties" = Except.ok (Val.obj rp2) →
          w1.heap[rp2]? = some pb2 →
          getOwn hb2 "circleOptions" = Val.obj ro →
          ∃ (m2 : μ) (w2 : World),
            function1 env feature2 latlng2 context2 w1 = Except.ok (m2, w2)
            ∧ getProp w2.heap (Val.obj ro) "fillColor"
              = Except.ok
                (env.scale (getOwn hb2 "colorscale")
                  (deref w1.heap (getOwn hb2 "colorscale"))
                  (getOwn hb2 "min") (getOwn hb2 "max")
                  (getOwn pb2 (toText env w1.heap (getOwn hb2 "colorProp"))))
            ∧ w2.heap = w.heap.set ro (putOwn ob "fillColor"
                (env.scale (getOwn hb2 "colorscale")
                  (deref w1.heap (getOwn hb2 "colorscale"))
                  (getOwn hb2 "min") (getOwn hb2 "max")
                  (getOwn pb2 (toText env w1.heap (getOwn hb2 "colorProp")))))
            ∧ ∀ (parse : String → Option RGB) (fallback : Val)
                (flat : RGB → List RGB → ℚ → ℚ → RGB) (rs1 rs2 : Nat) (so1 so2 : Obj)
                (ca cb : RGB) (mn mx x1 x2 : ℚ),
                env.scale = specScale parse fallback flat →
                getOwn hb1 "colorscale" = Val.obj rs1 → w.heap[rs1]? = some so1 →
                stopColors parse (arrayElems so1) = some [ca, cb] →
                getOwn hb1 "min" = Val.num mn → getOwn hb1 "max" = Val.num mx →
                getOwn pb1 (toText env w.heap (getOwn hb1 "colorProp")) = Val.num x1 →
                getOwn hb2 "colorscale" = Val.obj rs2 → w1.heap[rs2]? = some so2 →
                stopColors parse (arrayElems so2) = some [ca, cb] →
                getOwn hb2 "min" = Val.num mn → getOwn hb2 "max" = Val.num mx →
                getOwn pb2 (toText env w1.heap (getOwn hb2 "colorProp")) = Val.num x2 →
                mn < mx → ca ≠ cb → mn ≤ x1 → x1 ≤ mx → mn ≤ x2 → x2 ≤ mx → x1 ≠ x2 →
                getProp w1.heap (Val.obj ro) "fillColor"
                  ≠ getProp w2.heap (Val.obj ro) "fillColor" := by
  have hrun1 := function1_wellFormed env feature1 latlng1 context1 w rh1 rp1 ro hb1 pb1 ob
    hctx1 hhb1 hfeat1 hpb1 hco1 hob
  have hfill1 : getProp (w.heap.set ro (putOwn ob "fillColor"
      (env.scale (getOwn hb1 "colorscale") (deref w.heap (getOwn hb1 "colorscale"))
        (getOwn hb1 "min") (getOwn hb1 "max")
        (getOwn pb1 (toText env w.heap (getOwn hb1 "colorProp")))))) (Val.obj ro) "fillColor"
      = Except.ok
        (env.scale (getOwn hb1 "colorscale") (deref w.heap (getOwn hb1 "colorscale"))
          (getOwn hb1 "min") (getOwn hb1 "max")
          (getOwn pb1 (toText env w.heap (getOwn hb1 "colorProp")))) := by
    rw [getProp_obj _ _ _ _ (getElem?_set_same _ _ _ _ hob), getOwn_putOwn_same]
  refine ⟨_, ⟨_, _, _⟩, hrun1, rfl, hfill1, ?_⟩
  intro rh2 rp2 hb2 pb2 hctx2 hhb2 hfeat2 hpb2 hco2
  have hob1 := getElem?_set_same w.heap ro ob (putOwn ob "fillColor"
    (env.scale (getOwn hb1 "colorscale") (deref w.heap (getOwn hb1 "colorscale"))
      (getOwn hb1 "min") (getOwn hb1 "max")
      (getOwn pb1 (toText env w.heap (getOwn hb1 "colorProp"))))) hob
  have hrun2 := function1_wellFormed env feature2 latlng2 context2 _ rh2 rp2 ro hb2 pb2 _
    hctx2 hhb2 hfeat2 hpb2 hco2 hob1
  have hfill2 := (getProp_obj _ _ _ "fillColor"
    (getElem?_set_same _ ro _ (putOwn (putOwn ob "fillColor"
      (env.scale (getOwn hb1 "colorscale") (deref w.heap (getOwn hb1 "colorscale"))
        (getOwn hb1 "min") (getOwn hb1 "max")
        (getOwn pb1 (toText env w.heap (getOwn hb1 "colorProp"))))) "fillColor"
      (env.scale (getOwn hb2 "colorscale")
        (deref (w.heap.set ro (putOwn ob "fillColor"
          (env.scale (getOwn hb1 "colorscale") (deref w.heap (getOwn hb1 "colorscale"))
            (getOwn hb1 "min") (getOwn hb1 "max")
            (getOwn pb1 (toText env w.heap (getOwn hb1 "colorProp"))))))
          (getOwn hb2 "colorscale"))
        (getOwn hb2 "min") (getOwn hb2 "max")
        (getOwn pb2 (toText env (w.heap.set ro (putOwn ob "fillColor"
          (env.scale (getOwn hb1 "colorscale") (deref w.heap (getOwn hb1 "colorscale"))
            (getOwn hb1 "min") (getOwn hb1 "max")
            (getOwn pb1 (toText env w.heap (getOwn hb1 "colorProp"))))))
          (getOwn hb2 "colorProp"))))) hob1)).trans
    (congrArg Except.ok (getOwn_putOwn_same _ _ _))
  refine ⟨_, ⟨_, _, _⟩, hrun2, hfill2, ?_, ?_⟩
  · simp only [List.set_set, putOwn_putOwn]
  · intro parse fallback flat rs1 rs2 so1 so2 ca cb mn mx x1 x2 hscale hcs1 hso1 hst1 hmn1
      hmx1 hx1 hcs2 hso2 hst2 hmn2 hmx2 hx2 hlt hcol hlo1 hhi1 hlo2 hhi2 hne
    rw [hfill1, hfill2]
    have hd1 : deref w.heap (Val.obj rs1) = some so1 := hso1
    have hd2 : deref (w.heap.set ro (putOwn ob "fillColor"
        (env.scale (getOwn hb1 "colorscale") (deref w.heap (getOwn hb1 "colorscale"))
          (getOwn hb1 "min") (getOwn hb1 "max")
          (getOwn pb1 (toText env w.heap (getOwn hb1 "colorProp"))))))
        (Val.obj rs2) = some so2 := hso2
    rw [hcs2, hmn2, hmx2, hx2, hd2]
    rw [hcs1, hmn1, hmx1, hx1, hd1, hscale,
      specScale_color parse fallback flat (Val.obj rs1) so1 ca [cb] mn mx x1 _ hst1
        (scaleAt_two flat ca cb mn mx x1 hlt hlo1 hhi1),
      specScale_color parse fallback flat (Val.obj rs2) so2 ca [cb] mn mx x2 _ hst2
        (scaleAt_two flat ca cb mn mx x2 hlt hlo2 hhi2)]
    intro heq
    have hl := Val.color.inj (Except.ok.inj heq)
    have ht := lerp_inj ca cb hcol _ _ hl
    have hden : mx - mn ≠ 0 := ne_of_gt (sub_pos.mpr hlt)
    have hx := (div_left_inj' hden).mp ht
    exact hne (by linarith)

/-- On the sample heap with one more feature: a call for the feature with
`mean_velocity` 50 and then a call for the one with 20, both inside the
domain `[0, 100]`, on the same options object: two different colours, and
the options object ends with the colour of the second call alone. -/
theorem function1_last_write_wins_witness :
    ∃ (m1 : Marker) (w1 : World) (m2 : Marker) (w2 : World),
      function1 sampleEnv (Val.obj 0) (Val.obj 6) (Val.obj 2) pairWorld = Except.ok (m1, w1)
      ∧ function1 sampleEnv (Val.obj 13) (Val.obj 6) (Val.obj 2) w1 = Except.ok (m2, w2)
      ∧ getProp w1.heap (Val.obj 5) "fillColor"
        = Except.ok (Val.color ⟨255 / 2, 255 / 2, 255 / 2⟩)
      ∧ getProp w2.heap (Val.obj 5) "fillColor" = Except.ok (Val.color ⟨51, 51, 51⟩)
      ∧ getProp w1.heap (Val.obj 5) "fillColor" ≠ getProp w2.heap (Val.obj 5) "fillColor"
      ∧ w2.heap[5]? = some [("radius", Val.num 5), ("fillOpacity", Val.num 1),
          ("fillColor", Val.color ⟨51, 51, 51⟩)] := by
  obtain ⟨m1, w1, hrun1, hheap1, hfill1, hsecond⟩ :=
    function1_last_write_wins sampleEnv (Val.obj 0) (Val.obj 6) (Val.obj 2)
      (Val.obj 13) (Val.obj 6) (Val.obj 2) pairWorld 3 1 5
      [("min", Val.num 0), ("max", Val.num 100), ("colorscale", Val.obj 4),
        ("circleOptions", Val.obj 5), ("colorProp", Val.str "mean_velocity")]
      [("pid", Val.str "A1"), ("mean_velocity", Val.num 50)]
      [("radius", Val.num 5), ("fillOpacity", Val.num 1)]
      rfl rfl rfl rfl rfl rfl
  obtain ⟨m2, w2, hrun2, hfill2, hheap2, hdiff⟩ :=
    hsecond 3 14
      [("min", Val.num 0), ("max", Val.num 100), ("colorscale", Val.obj 4),
        ("circleOptions", Val.obj 5), ("colorProp", Val.str "mean_velocity")]
      [("pid", Val.str "E5"), ("mean_velocity", Val.num 20)]
      (by rw [hheap1]; rfl) (by rw [hheap1]; rfl) (by rw [hheap1]; rfl)
      (by rw [hheap1]; rfl) rfl
  have hne := hdiff hexColor Val.undefined (fun c rest _ _ => rest.getLastD c) 4 4
    [("0", Val.str "#000000"), ("1", Val.str "#ffffff")]
    [("0", Val.str "#000000"), ("1", Val.str "#ffffff")]
    ⟨0, 0, 0⟩ ⟨255, 255, 255⟩ 0 100 50 20
    rfl rfl rfl (by decide) rfl rfl rfl rfl (by rw [hheap1]; rfl) (by decide) rfl rfl rfl
    (by norm_num) (by decide) (by norm_num) (by norm_num) (by norm_num) (by norm_num)
    (by norm_num)
  have hc2 : getProp w2.heap (Val.obj 5) "fillColor" = Except.ok (Val.color ⟨51, 51, 51⟩) := by
    rw [hfill2, hheap1]
    exact congrArg Except.ok sampleEnv_scale_20
  refine ⟨m1, w1, m2, w2, hrun1, hrun2,
    hfill1.trans (congrArg Except.ok sampleEnv_scale_50), hc2, hne, ?_⟩
  rw [hheap2, hheap1]
  have hs : sampleEnv.scale (Val.obj 4)
      (some [("0", Val.str "#000000"), ("1", Val.str "#ffffff")])
      (Val.num 0) (Val.num 100) (Val.num 20) = Val.color ⟨51, 51, 51⟩ := sampleEnv_scale_20
  exact (getElem?_set_same _ 5 [("radius", Val.num 5), ("fillOpacity", Val.num 1)] _ rfl).trans
    (congrArg (fun v => some (putOwn [("radius", Val.num 5), ("fillOpacity", Val.num 1)]
      "fillColor" v)) hs)

/-- C6, as stated, fails: on the sample heap two calls in sequence share the
options object 5, the first for a feature with `mean_velocity` 150 and the
second for one with `mean_velocity` 200, on the domain `[0, 100]`; the two
values differ and both calls leave the same fill colour, the last colour of
the scale. -/
theorem function1_sequential_equal_colours :
    function1 sampleEnv (Val.obj 7) (Val.obj 6) (Val.obj 2) sampleWorld
        = Except.ok
          (⟨Val.obj 6, Val.obj 5,
            some [("radius", Val.num 5), ("fillOpacity", Val.num 1),
              ("fillColor", Val.color ⟨255, 255, 255⟩)]⟩,
           ⟨sampleHeap.set 5 [("radius", Val.num 5), ("fillOpacity", Val.num 1),
              ("fillColor", Val.color ⟨255, 255, 255⟩)], [], Val.undefined⟩)
      ∧ function1 sampleEnv (Val.obj 9) (Val.obj 6) (Val.obj 2)
          ⟨sampleHeap.set 5 [("radius", Val.num 5), ("fillOpacity", Val.num 1),
              ("fillColor", Val.color ⟨255, 255, 255⟩)], [], Val.undefined⟩
        = Except.ok
          (⟨Val.obj 6, Val.obj 5,
            some [("radius", Val.num 5), ("fillOpacity", Val.num 1),
              ("fillColor", Val.color ⟨255, 255, 255⟩)]⟩,
           ⟨sampleHeap.set 5 [("radius", Val.num 5), ("fillOpacity", Val.num 1),
              ("fillColor", Val.color ⟨255, 255, 255⟩)], [], Val.undefined⟩)
      ∧ getProp sampleHeap (Val.obj 8) "mean_velocity" = Except.ok (Val.num 150)
      ∧ getProp sampleHeap (Val.obj 10) "mean_velocity" = Except.ok (Val.num 200)
      ∧ Val.num 150 ≠ Val.num 200 :=
  ⟨rfl, rfl, rfl, rfl, by decide⟩

/-! ## The colour of a value, on the modelled scale -/

/-- C4: with the colour scale as the spec describes it, a two-colour
`colorscale` with colours `c0`, `c1` and `min < max`: for a value `x` with
`min ≤ x ≤ max`, `function1` returns and leaves in `circleOptions.fillColor`
the linear interpolation of `c0` and `c1` at `(x - min) / (max - min)`;
that is `c0` at `min`, `c1` at `max` and the channel-wise midpoint at
`(min + max) / 2`. -/
theorem function1_two_colour_scale {μ : Type} (env : Env μ) (parse : String → Option RGB)
    (fallback : Val) (flat : RGB → List RGB → ℚ → ℚ → RGB)
    (feature latlng context : Val) (w : World)
    (rh rp ro rs : Nat) (hb pb ob so : Obj) (c0 c1 : RGB) (mn mx x : ℚ)
    (hscale : env.scale = specScale parse fallback flat)
    (hctx : getProp w.heap context "hideout" = Except.ok (Val.obj rh))
    (hhb : w.heap[rh]? = some hb)
    (hfeat : getProp w.heap feature "properties" = Except.ok (Val.obj rp))
    (hpb : w.heap[rp]? = some pb)
    (hco : getOwn hb "circleOptions" = Val.obj ro)
    (hob : w.heap[ro]? = some ob)
    (hcs : getOwn hb "colorscale" = Val.obj rs)
    (hso : w.heap[rs]? = some so)
    (hstops : stopColors parse (arrayElems so) = some [c0, c1])
    (hmn : getOwn hb "min" = Val.num mn)
    (hmx : getOwn hb "max" = Val.num mx)
    (hx : getOwn pb (toText env w.heap (getOwn hb "colorProp")) = Val.num x)
    (hlt : mn < mx) (hlo : mn ≤ x) (hhi : x ≤ mx) :
    ∃ (m : μ) (w2 : World),
      function1 env feature latlng context w = Except.ok (m, w2)
      ∧ getProp w2.heap (Val.obj ro) "fillColor"
        = Except.ok (Val.color (lerp c0 c1 ((x - mn) / (mx - mn))))
      ∧ (x = mn → getProp w2.heap (Val.obj ro) "fillColor" = Except.ok (Val.color c0))
      ∧ (x = mx → getProp w2.heap (Val.obj ro) "fillColor" = Except.ok (Val.color c1))
      ∧ (x = (mn + mx) / 2 →
          getProp w2.heap (Val.obj ro) "fillColor"
            = Except.ok (Val.color (midpoint c0 c1))) := by
  have hrun := function1_wellFormed env feature latlng context w rh rp ro hb pb ob
    hctx hhb hfeat hpb hco hob
  rw [hcs, hmn, hmx, hx] at hrun
  have hd : deref w.heap (Val.obj rs) = some so := hso
  rw [hd, hscale, specScale_color parse fallback flat (Val.obj rs) so c0 [c1] mn mx x _ hstops
    (scaleAt_two flat c0 c1 mn mx x hlt hlo hhi)] at hrun
  have hfill : getProp (w.heap.set ro (putOwn ob "fillColor"
      (Val.color (lerp c0 c1 ((x - mn) / (mx - mn)))))) (Val.obj ro) "fillColor"
      = Except.ok (Val.color (lerp c0 c1 ((x - mn) / (mx - mn)))) := by
    rw [getProp_obj _ _ _ _ (getElem?_set_same _ _ _ _ hob), getOwn_putOwn_same]
  have hne : mx - mn ≠ 0 := ne_of_gt (sub_pos.mpr hlt)
  refine ⟨_, ⟨_, _, _⟩, hrun, hfill, ?_, ?_, ?_⟩
  · intro h
    rw [hfill, h, sub_self, zero_div, lerp_zero]
  · intro h
    rw [hfill, h, div_self hne, lerp_one]
  · intro h
    have ht : (x - mn) / (mx - mn) = 1 / 2 := by
      rw [h]
      field_simp
      ring
    rw [hfill, ht, lerp_half]

/-- The example of the spec: `min = 0`, `max = 100`, the scale from `#000000`
to `#ffffff` and `mean_velocity` 50 give mid-gray. -/
theorem function1_two_colour_scale_witness :
    ∃ (m : Marker) (w2 : World),
      function1 sampleEnv (Val.obj 0) (Val.obj 6) (Val.obj 2) sampleWorld = Except.ok (m, w2)
      ∧ getProp w2.heap (Val.obj 5) "fillColor"
        = Except.ok (Val.color (midpoint ⟨0, 0, 0⟩ ⟨255, 255, 255⟩))
      ∧ midpoint ⟨0, 0, 0⟩ ⟨255, 255, 255⟩ = ⟨255 / 2, 255 / 2, 255 / 2⟩ := by
  obtain ⟨m, w2, hrun, _, _, _, hmid⟩ :=
    function1_two_colour_scale sampleEnv hexColor Val.undefined
      (fun c rest _ _ => rest.getLastD c)
      (Val.obj 0) (Val.obj 6) (Val.obj 2) sampleWorld 3 1 5 4
      [("min", Val.num 0), ("max", Val.num 100), ("colorscale", Val.obj 4),
        ("circleOptions", Val.obj 5), ("colorProp", Val.str "mean_velocity")]
      [("pid", Val.str "A1"), ("mean_velocity", Val.num 50)]
      [("radius", Val.num 5), ("fillOpacity", Val.num 1)]
      [("0", Val.str "#000000"), ("1", Val.str "#ffffff")]
      ⟨0, 0, 0⟩ ⟨255, 255, 255⟩ 0 100 50
      rfl rfl rfl rfl rfl rfl rfl rfl rfl (by decide) rfl rfl rfl
      (by norm_num) (by norm_num) (by norm_num)
  exact ⟨m, w2, hrun, hmid (by norm_num), by norm_num [midpoint]⟩

/-- C5, as the code has it: `function1` adds no extrapolation and no clamping
of its own: for every colour scale it returns and stores exactly what the
scale answers for the value as it was read.  With the colour scale as the
spec describes it, a `colorscale` of the colours `c :: rest` and
`min < max`, that is the first colour `c` for a numeric value below `min`
and the last colour for one above `max`. -/
theorem function1_clamped {μ : Type} (env : Env μ) (feature latlng context : Val)
    (w : World) (rh rp ro : Nat) (hb pb ob : Obj)
    (hctx : getProp w.heap context "hideout" = Except.ok (Val.obj rh))
    (hhb : w.heap[rh]? = some hb)
    (hfeat : getProp w.heap feature "properties" = Except.ok (Val.obj rp))
    (hpb : w.heap[rp]? = some pb)
    (hco : getOwn hb "circleOptions" = Val.obj ro)
    (hob : w.heap[ro]? = some ob) :
    ∃ (m : μ) (w2 : World),
      function1 env feature latlng context w = Except.ok (m, w2)
      ∧ getProp w2.heap (Val.obj ro) "fillColor"
        = Except.ok
          (env.scale (getOwn hb "colorscale") (deref w.heap (getOwn hb "colorscale"))
            (getOwn hb "min") (getOwn hb "max")
            (getOwn pb (toText env w.heap (getOwn hb "colorProp"))))
      ∧ ∀ (parse : String → Option RGB) (fallback : Val)
          (flat : RGB → List RGB → ℚ → ℚ → RGB) (rs : Nat) (so : Obj)
          (c : RGB) (rest : List RGB) (mn mx x : ℚ),
          env.scale = specScale parse fallback flat →
          getOwn hb "colorscale" = Val.obj rs → w.heap[rs]? = some so →
          stopColors parse (arrayElems so) = some (c :: rest) →
          getOwn hb "min" = Val.num mn → getOwn hb "max" = Val.num mx →
          getOwn pb (toText env w.heap (getOwn hb "colorProp")) = Val.num x →
          mn < mx →
          (x < mn → getProp w2.heap (Val.obj ro) "fillColor" = Except.ok (Val.color c))
          ∧ (mx < x →
              getProp w2.heap (Val.obj ro) "fillColor"
                = Except.ok (Val.color (rest.getLastD c))) := by
  have hfill : getProp (w.heap.set ro (putOwn ob "fillColor"
      (env.scale (getOwn hb "colorscale") (deref w.heap (getOwn hb "colorscale"))
        (getOwn hb "min") (getOwn hb "max")
        (getOwn pb (toText env w.heap (getOwn hb "colorProp")))))) (Val.obj ro) "fillColor"
      = Except.ok
        (env.scale (getOwn hb "colorscale") (deref w.heap (getOwn hb "colorscale"))
          (getOwn hb "min") (getOwn hb "max")
          (getOwn pb (toText env w.heap (getOwn hb "colorProp")))) := by
    rw [getProp_obj _ _ _ _ (getElem?_set_same _ _ _ _ hob), getOwn_putOwn_same]
  refine ⟨_, ⟨_, _, _⟩, function1_wellFormed env feature latlng context w rh rp ro hb pb ob
    hctx hhb hfeat hpb hco hob, hfill, ?_⟩
  intro parse fallback flat rs so c rest mn mx x hscale hcs hso hstops hmn hmx hx hlt
  have hd : deref w.heap (Val.obj rs) = some so := hso
  rw [hfill, hcs, hmn, hmx, hx, hd, hscale]
  constructor
  · intro h
    rw [specScale_color parse fallback flat (Val.obj rs) so c rest mn mx x _ hstops
      (scaleAt_below flat c rest mn mx x hlt h)]
  · intro h
    rw [specScale_color parse fallback flat (Val.obj rs) so c rest mn mx x _ hstops
      (scaleAt_above flat c rest mn mx x hlt h)]

/-- On the sample heap, `mean_velocity` 150 is above `max = 100`: the fill
colour is the last colour of the scale, white. -/
theorem function1_clamped_witness :
    ∃ (m : Marker) (w2 : World),
      function1 sampleEnv (Val.obj 7) (Val.obj 6) (Val.obj 2) sampleWorld = Except.ok (m, w2)
      ∧ getProp w2.heap (Val.obj 5) "fillColor" = Except.ok (Val.color ⟨255, 255, 255⟩) := by
  obtain ⟨m, w2, hrun, _, hspec⟩ :=
    function1_clamped sampleEnv (Val.obj 7) (Val.obj 6) (Val.obj 2) sampleWorld 3 8 5
      [("min", Val.num 0), ("max", Val.num 100), ("colorscale", Val.obj 4),
        ("circleOptions", Val.obj 5), ("colorProp", Val.str "mean_velocity")]
      [("pid", Val.str "B2"), ("mean_velocity", Val.num 150)]
      [("radius", Val.num 5), ("fillOpacity", Val.num 1)]
      rfl rfl rfl rfl rfl rfl
  have habove := (hspec hexColor Val.undefined (fun c rest _ _ => rest.getLastD c) 4
    [("0", Val.str "#000000"), ("1", Val.str "#ffffff")]
    ⟨0, 0, 0⟩ [⟨255, 255, 255⟩] 0 100 150
    rfl rfl rfl (by decide) rfl rfl rfl (by norm_num)).2
  exact ⟨m, w2, hrun, habove (by norm_num)⟩

/-- C5, as stated, fails at `min = max`: in this state the domain is the single
point 0, the scale goes from black to white and the feature's value is -5,
a number below `min`.  The scale, which on a domain of a single point
answers its last colour, gives white, and the call leaves white in
`circleOptions.fillColor`, not the first colour of `colorscale`, black. -/
theorem function1_single_point_domain :
    getProp flatWorld.heap (Val.obj 3) "min" = Except.ok (Val.num 0)
      ∧ getProp flatWorld.heap (Val.obj 3) "max" = Except.ok (Val.num 0)
      ∧ getProp flatWorld.heap (Val.obj 1) "mean_velocity" = Except.ok (Val.num (-5))
      ∧ ((-5 : ℚ) < 0 ∧ (0 : ℚ) ≤ 0)
      ∧ getProp flatWorld.heap (Val.obj 4) "0" = Except.ok (Val.str "#000000")
      ∧ hexColor "#000000" = some ⟨0, 0, 0⟩
      ∧ function1 sampleEnv (Val.obj 0) (Val.obj 6) (Val.obj 2) flatWorld
        = Except.ok
          (⟨Val.obj 6, Val.obj 5,
            some [("radius", Val.num 5), ("fillColor", Val.color ⟨255, 255, 255⟩)]⟩,
           ⟨flatWorld.heap.set 5
              [("radius", Val.num 5), ("fillColor", Val.color ⟨255, 255, 255⟩)],
            [], Val.undefined⟩)
      ∧ Val.color ⟨255, 255, 255⟩ ≠ Val.color ⟨0, 0, 0⟩ :=
  ⟨rfl, rfl, rfl, by norm_num, rfl, by decide, rfl, by decide⟩

/-! ## Registration -/

theorem lookup_eq_none_of_not_mem (o : Obj) (k : String)
    (hk : k ∉ o.map Prod.fst) : List.lookup k o = none := by
  induction o with
  | nil => rfl
  | cons p rest ih =>
    obtain ⟨k2, v2⟩ := p
    simp only [List.map_cons, List.mem_cons, not_or] at hk
    have h2 : (k == k2) = false := by simpa using hk.1
    simp [List.lookup, h2, ih hk.2]

/-- Copying the entries of a source with distinct keys: the target then
answers with the source's value for a key of the source and with its own
old value for any other key. -/
theorem lookup_assignFrom (src : Obj) (hkeys : (src.map Prod.fst).Nodup) (t : Obj)
    (k : String) :
    List.lookup k (assignFrom t src)
      = match List.lookup k src with
        | some v => some v
        | none => List.lookup k t := by
  induction src generalizing t with
  | nil => rfl
  | cons p rest ih =>
    obtain ⟨k0, v0⟩ := p
    simp only [List.map_cons, List.nodup_cons] at hkeys
    have hstep : assignFrom t ((k0, v0) :: rest) = assignFrom (putOwn t k0 v0) rest := rfl
    rw [hstep, ih hkeys.2]
    by_cases hk : k = k0
    · subst hk
      rw [lookup_eq_none_of_not_mem rest k hkeys.1]
      simp [List.lookup, lookup_putOwn_same]
    · have h2 : (k == k0) = false := by simpa using hk
      simp only [List.lookup, h2]
      cases List.lookup k rest with
      | some v => rfl
      | none => exact lookup_putOwn_other t k0 k v0 hk

theorem heap_get_at (l : Heap) (a : Obj) (rest : Heap) :
    (l ++ a :: rest)[l.length]? = some a := by
  rw [List.getElem?_append_right (Nat.le_refl _)]
  simp

theorem heap_set_at (l : Heap) (a b : Obj) (rest : Heap) :
    (l ++ a :: rest).set l.length b = l ++ b :: rest := by
  simp [List.set_append]

theorem heap_get_left (l rest : Heap) (r : Nat) (hr : r < l.length) :
    (l ++ rest)[r]? = l[r]? :=
  List.getElem?_append_left hr

theorem ownEntries_append {μ : Type} (env : Env μ) (l rest : Heap) (v : Val) (entries : Obj)
    (h : ownEntries env l v = Except.ok entries) :
    ownEntries env (l ++ rest) v = Except.ok entries := by
  cases v with
  | obj r =>
    cases hr : l[r]? with
    | none => simp [ownEntries, hr] at h
    | some o =>
      have hlt : r < l.length := by
        by_contra hge
        have : l[r]? = none := List.getElem?_eq_none (Nat.le_of_not_lt hge)
        simp [this] at hr
      simp only [ownEntries, hr] at h
      simp only [ownEntries, heap_get_left l rest r hlt, hr]
      exact h
  | undefined => exact h
  | null => exact h
  | bool b => exact h
  | num x => exact h
  | str x => exact h
  | fn x => exact h
  | color x => exact h

theorem objectAssign_cons {μ : Type} (env : Env μ) (h : Heap) (target : Nat) (s : Val)
    (rest : List Val) (entries t : Obj)
    (hs : ownEntries env h s = Except.ok entries) (ht : h[target]? = some t) :
    objectAssign env h target (s :: rest)
      = objectAssign env (h.set target (assignFrom t entries)) target rest := by
  simp [objectAssign, hs, ht, bind, Except.bind]

/-- The run of the script. -/
theorem dashExtensionsScript_run {μ : Type} (env : Env μ) (w : World) (entries : Obj)
    (hold : ownEntries env w.heap w.dashExtensions = Except.ok entries) :
    dashExtensionsScript env w
      = Except.ok
        { w with
          heap := w.heap ++
            [putOwn (assignFrom [] entries) "default" (Val.obj (w.heap.length + 1)),
              [("function0", Val.fn "function0"), ("function1", Val.fn "function1")],
              [("default", Val.obj (w.heap.length + 1))]],
          dashExtensions := Val.obj w.heap.length } := by
  have h3 : ((w.heap ++ [[]]) ++
      [[("function0", Val.fn "function0"), ("function1", Val.fn "function1")]]) ++
      [[("default", Val.obj (w.heap.length + 1))]]
      = w.heap ++ ([] :: [[("function0", Val.fn "function0"), ("function1", Val.fn "function1")],
          [("default", Val.obj (w.heap.length + 1))]]) := by
    simp
  have hout : ∀ (a : Obj) (b : Obj) (c : Obj),
      ownEntries env (w.heap ++ a :: [b, c]) (Val.obj (w.heap.length + 2)) = Except.ok c := by
    intro a b c
    have : (w.heap ++ a :: [b, c])[w.heap.length + 2]? = some c := by
      rw [List.getElem?_append_right (by omega)]
      simp
    simp [ownEntries, this]
  have hassign : objectAssign env
      (w.heap ++ ([] :: [[("function0", Val.fn "function0"), ("function1", Val.fn "function1")],
          [("default", Val.obj (w.heap.length + 1))]]))
      w.heap.length [w.dashExtensions, Val.obj (w.heap.length + 2)]
      = Except.ok (w.heap ++
            [putOwn (assignFrom [] entries) "default" (Val.obj (w.heap.length + 1)),
              [("function0", Val.fn "function0"), ("function1", Val.fn "function1")],
              [("default", Val.obj (w.heap.length + 1))]]) := by
    rw [objectAssign_cons env _ _ _ _ entries [] (ownEntries_append env _ _ _ _ hold)
      (heap_get_at _ _ _), heap_set_at,
      objectAssign_cons env _ _ _ _ [("default", Val.obj (w.heap.length + 1))]
        (assignFrom [] entries) (hout _ _ _) (heap_get_at _ _ _), heap_set_at]
    rfl
  simp only [dashExtensionsScript, alloc, List.length_append, List.length_singleton, h3,
    hassign, bind, Except.bind, pure, Except.pure]

/-- C10: registration builds a new registry object.  Whatever
`window.dashExtensions` held before (an object, `undefined`, any other
value, with `entries` its own enumerable properties), the script returns and
afterwards `window.dashExtensions` refers to an object that did not exist
before; that object answers every key other than `default` as the previous
value did, and answers `default` with another new object, whose entries are
exactly `function0` and `function1`; every object that existed before, the
previous registry among them, is as it was. -/
theorem dashExtensionsScript_registers {μ : Type} (env : Env μ) (w : World) (entries : Obj)
    (hold : ownEntries env w.heap w.dashExtensions = Except.ok entries)
    (hkeys : (entries.map Prod.fst).Nodup) :
    ∃ (w2 : World) (reg : Obj),
      dashExtensionsScript env w = Except.ok w2
      ∧ w2.dashExtensions = Val.obj w.heap.length
      ∧ w.heap[w.heap.length]? = none
      ∧ w2.heap[w.heap.length]? = some reg
      ∧ (∀ k : String, k ≠ "default" → List.lookup k reg = List.lookup k entries)
      ∧ List.lookup "default" reg = some (Val.obj (w.heap.length + 1))
      ∧ w.heap[w.heap.length + 1]? = none
      ∧ w2.heap[w.heap.length + 1]?
        = some [("function0", Val.fn "function0"), ("function1", Val.fn "function1")]
      ∧ (∀ r : Nat, r < w.heap.length → w2.heap[r]? = w.heap[r]?)
      ∧ w2.tooltips = w.tooltips := by
  refine ⟨_, putOwn (assignFrom [] entries) "default" (Val.obj (w.heap.length + 1)),
    dashExtensionsScript_run env w entries hold, rfl, ?_, ?_, ?_, ?_, ?_, ?_, ?_, rfl⟩
  · exact List.getElem?_eq_none (Nat.le_refl _)
  · exact heap_get_at _ _ _
  · intro k hk
    rw [lookup_putOwn_other _ _ _ _ hk, lookup_assignFrom entries hkeys [] k]
    cases List.lookup k entries with
    | some v => rfl
    | none => rfl
  · exact lookup_putOwn_same _ _ _
  · exact List.getElem?_eq_none (Nat.le_succ _)
  · show (w.heap ++ _)[w.heap.length + 1]? = _
    rw [List.getElem?_append_right (Nat.le_succ _)]
    simp
  · intro r hr
    exact heap_get_left _ _ r hr

/-- On a state whose registry already has `default` and `custom`: the new
registry is the new object 3, it keeps `custom`, its `default` is the new
object 4 holding exactly `function0` and `function1`, and the earlier
registry object 0 and the earlier `default` object 1 are as they were. -/
theorem dashExtensionsScript_registers_witness :
    ∃ (w2 : World) (reg : Obj),
      dashExtensionsScript sampleEnv registryWorld = Except.ok w2
      ∧ w2.dashExtensions = Val.obj 3
      ∧ w2.heap[3]? = some reg
      ∧ List.lookup "custom" reg = some (Val.obj 2)
      ∧ List.lookup "default" reg = some (Val.obj 4)
      ∧ w2.heap[4]?
        = some [("function0", Val.fn "function0"), ("function1", Val.fn "function1")]
      ∧ w2.heap[0]? = some [("default", Val.obj 1), ("custom", Val.obj 2)]
      ∧ w2.heap[1]?
        = some [("function0", Val.fn "earlier0"), ("function7", Val.fn "earlier7")] := by
  obtain ⟨w2, reg, hrun, hslot, _, hreg, hkeep, hdef, _, hinner, hold, _⟩ :=
    dashExtensionsScript_registers sampleEnv registryWorld
      [("default", Val.obj 1), ("custom", Val.obj 2)] rfl (by decide)
  exact ⟨w2, reg, hrun, hslot, hreg, hkeep "custom" (by decide), hdef, hinner,
    hold 0 (by decide), hold 1 (by decide)⟩

end DashExtensions
